import Mathlib

/-!
Verification of the psychopy-eyelogic sources against their natural-language
specification.  Each section embeds one slice of the Python sources as Lean
definitions (pure data + explicit state passing) and proves or refutes the
corresponding claims.  External libraries (hashlib, numpy, wx, ...) are
treated as opaque capabilities; everything written by this repository is
translated literally.
-/

namespace PsychoPy

/- ===================================================================
   Section 1: `psychopy/plugins/__init__.py :: computeChecksum`
   (claim C1)

   The function opens the file, then runs

       chunk = f.read(4096)
       while chunk != b"":
           chunk = f.read(4096)
           hashobj.update(chunk)

   and finally returns `hashobj.hexdigest()`.  The hash objects
   (hashlib.md5 / hashlib.sha256) are external primitives; their digest is
   a pure function of the byte stream passed to `update`.  We therefore
   embed the loop as the function computing exactly that byte stream:
   the file content is a list of bytes, `f.read(4096)` takes the next
   4096-byte chunk, and the bytes given to `update` are accumulated.
   =================================================================== -/

/-- A byte of file content. -/
abbrev Byte := Nat

/-- The read/update loop of `computeChecksum`, started after the initial
`chunk = f.read(4096)`.  `chunk` is the last chunk read, `rest` is the
unread remainder of the file and `fed` accumulates every byte passed to
`hashobj.update`.  Each iteration first re-reads (`chunk = f.read(4096)`)
and only then updates, exactly as in the source. -/
def computeChecksumGo (chunk rest fed : List Byte) : List Byte :=
  if chunk = [] then fed
  else computeChecksumGo (rest.take 4096) (rest.drop 4096) (fed ++ rest.take 4096)
termination_by rest.length * 2 + chunk.length
decreasing_by
  have hc : chunk ≠ [] := by assumption
  have hlen : 0 < chunk.length := List.length_pos.mpr hc
  simp only [List.length_take, List.length_drop]
  omega

/-- The full byte stream fed to the hash object by `computeChecksum` when
the file holds `content`. -/
def computeChecksumFedBytes (content : List Byte) : List Byte :=
  computeChecksumGo (content.take 4096) (content.drop 4096) []

theorem computeChecksumGo_spec (n : Nat) :
    ∀ rest : List Byte, rest.length ≤ n → ∀ chunk fed : List Byte, chunk ≠ [] →
      computeChecksumGo chunk rest fed = fed ++ rest := by
  induction n with
  | zero =>
    intro rest hrest chunk fed hc
    have : rest = [] := List.eq_nil_of_length_eq_zero (Nat.le_zero.mp hrest)
    subst this
    rw [computeChecksumGo, if_neg hc]
    simp [computeChecksumGo]
  | succ n ih =>
    intro rest hrest chunk fed hc
    rcases Decidable.em (rest = []) with hnil | hne
    · subst hnil
      rw [computeChecksumGo, if_neg hc]
      simp [computeChecksumGo]
    · rw [computeChecksumGo, if_neg hc]
      have htake : rest.take 4096 ≠ [] := by
        intro h
        have := congrArg List.length h
        simp only [List.length_take, List.length_nil] at this
        have : rest.length = 0 := by omega
        exact hne (List.eq_nil_of_length_eq_zero this)
      have hdrop : (rest.drop 4096).length ≤ n := by
        have h1 : 0 < rest.length := List.length_pos.mpr hne
        simp only [List.length_drop]
        omega
      rw [ih (rest.drop 4096) hdrop (rest.take 4096) (fed ++ rest.take 4096) htake]
      simp

/-- The loop feeds exactly the file content with its first 4096-byte chunk
removed: the chunk read before the loop is overwritten by the re-read at the
top of the loop body before ever reaching `hashobj.update`. -/
theorem computeChecksumFedBytes_eq_drop (content : List Byte) :
    computeChecksumFedBytes content = content.drop 4096 := by
  unfold computeChecksumFedBytes
  rcases Decidable.em (content.take 4096 = []) with hnil | hne
  · have hlen : content.length = 0 ∨ content = [] ∨ content.length ≤ 0 := by
      have := congrArg List.length hnil
      simp only [List.length_take, List.length_nil] at this
      left; omega
    have : content = [] := by
      rcases hlen with h | h | h
      · exact List.eq_nil_of_length_eq_zero h
      · exact h
      · exact List.eq_nil_of_length_eq_zero (Nat.le_zero.mp h)
    subst this
    simp [computeChecksumGo]
  · rw [computeChecksumGo_spec (content.drop 4096).length (content.drop 4096)
        (Nat.le_refl _) (content.take 4096) [] hne]
    simp

/-- C1: `computeChecksum(fpath, method)` is claimed to return the digest of
the file's entire contents.  In fact the first 4096-byte chunk is read and
then discarded (`chunk = f.read(4096)` at the top of the loop body replaces
it before any `hashobj.update` runs), so the hash object only ever sees the
content from byte 4096 onwards.  For the one-byte file `[97]` (the file
containing "a") the hash object is fed the empty stream, so the returned
digest is the digest of the empty input, not of the file's contents. -/
theorem computeChecksum_feeds_drop_4096 :
    computeChecksumFedBytes [97] = [] ∧
    ([] : List Byte) ≠ [97] ∧
    ∀ content : List Byte, computeChecksumFedBytes content = content.drop 4096 := by
  refine ⟨?_, by simp, computeChecksumFedBytes_eq_drop⟩
  rw [computeChecksumFedBytes_eq_drop]
  simp

/- ===================================================================
   Section 2: `psychopy/experiment/params.py :: Param.asString`
   (claim C8)

   `asString` dispatches on `valType` and, for `'bool'`, on the active
   code-generation target `utils.scriptTarget`:

       elif valType == 'bool':
           if utils.scriptTarget == "PsychoJS":
               return ("%s" % val).lower()  # make True -> "true"
           else:
               return "%s" % val

   and for `'int'`:

       elif valType == 'int':
           try:
               return "%i" % val
           except TypeError:
               return "%s" % val

   We embed the Python values that can sit in these parameters and the two
   branches of the dispatch that decide the claim (`'int'` and `'bool'`);
   `utils.scriptTarget` is passed explicitly as the string it holds. -/

/-- A Python value held by a `Param` in the modelled branches. -/
inductive PyVal where
  | pybool (b : Bool)
  | pyint (n : Int)
  | pystr (s : String)
  | pynone
deriving DecidableEq, Repr

/-- Python `"%s" % val` for the modelled values. -/
def pyFormatS : PyVal → String
  | .pybool b => if b then "True" else "False"
  | .pyint n => toString n
  | .pystr s => s
  | .pynone => "None"

/-- Python `"%i" % val`; raises `TypeError` (modelled as `none`) for values
that are not numbers.  `bool` is a subclass of `int` in Python, so it
formats as `1`/`0`. -/
def pyFormatI : PyVal → Option String
  | .pybool b => some (if b then "1" else "0")
  | .pyint n => some (toString n)
  | .pystr _ => none
  | .pynone => none

/-- Python's `str.lower()` on one character (ASCII; the strings produced by
`"%s" % val` in the modelled branches are ASCII). -/
def pyCharLower (c : Char) : Char :=
  if 'A' ≤ c ∧ c ≤ 'Z' then Char.ofNat (c.toNat + 32) else c

/-- Python's `str.lower()` builtin. -/
def pyStrLower (s : String) : String :=
  String.mk (s.data.map pyCharLower)

/-- The `valType` values whose `asString` branches are embedded. -/
inductive ValTypeM where
  | vtInt
  | vtBool
deriving DecidableEq, Repr

/-- `Param.asString` restricted to the `'int'` and `'bool'` branches, with
the active code-generation target (`utils.scriptTarget`) made an explicit
argument.  The function depends on nothing else, mirroring that `asString`
reads only `val`, `valType` and the target. -/
def asString (val : PyVal) (valType : ValTypeM) (scriptTarget : String) : String :=
  match valType with
  | .vtInt =>
    match pyFormatI val with
    | some s => s
    | none => pyFormatS val
  | .vtBool =>
    if scriptTarget = "PsychoJS" then pyStrLower (pyFormatS val)
    else pyFormatS val

/-- C8: for a fixed `(val, valType)` pair and fixed target, `asString` is a
pure function (repeated application yields identical output — in this
embedding it is a function of exactly those three arguments), and for
`valType='bool'` with an underlying Python boolean the native target
(`scriptTarget = "PsychoPy"`) renders capitalized `True`/`False` while the
web target (`"PsychoJS"`) renders lowercase `true`/`false`. -/
theorem asString_pure_and_bool_casing :
    (∀ (val : PyVal) (valType : ValTypeM) (tgt : String),
        asString val valType tgt = asString val valType tgt) ∧
    (∀ b : Bool,
        asString (.pybool b) .vtBool "PsychoPy" = (if b then "True" else "False") ∧
        asString (.pybool b) .vtBool "PsychoJS" = (if b then "true" else "false")) := by
  refine ⟨fun _ _ _ => rfl, fun b => ⟨?_, ?_⟩⟩
  · cases b <;> rfl
  · cases b <;> decide

/- ===================================================================
   Section 3: `psychopy/experiment/components/textbox/__init__.py ::
   TextboxComponent.__init__`  (claim C9)

   After the `super().__init__` call the constructor populates
   `self.params` with one `Param` per configurable property, in source
   order.  The two flip entries are populated from the *opposite*
   constructor arguments:

       self.params['flipHoriz'] = Param(flipVert, valType='bool', ...)
       self.params['flipVert'] = Param(flipHoriz, valType='bool', ...)

   We embed the params mapping as the insertion-ordered association list
   of (name, val, valType) produced by this constructor body (UI-only
   fields — hints, labels, allowed updates — are not value-relevant and
   are omitted; entries added by the base-class constructor are outside
   the cited code). -/

/-- A literal Python value stored in a builder `Param`. -/
inductive PyLit where
  | lstr (s : String)
  | lbool (b : Bool)
  | lnum (q : ℚ)
  | lnone
deriving DecidableEq, Repr

/-- The value-relevant fields of a builder `Param`. -/
structure TBParam where
  val : PyLit
  valType : String
deriving DecidableEq, Repr

/-- The constructor arguments of `TextboxComponent.__init__` that flow into
the `self.params` entries assigned in the constructor body. -/
structure TextboxArgs where
  text : String
  font : String
  letterHeight : PyLit
  wrapWidth : PyLit
  flipHoriz : Bool
  flipVert : Bool
  languageStyle : String
  italic : Bool
  bold : Bool
  lineSpacing : PyLit
  padding : PyLit
  boxsizing : Bool
  anchorY : String
  fillColor : PyLit
  borderColor : PyLit
  borderWidth : PyLit
  editable : Bool
  autoLog : PyLit

/-- Association-list lookup (Python `dict[key]` access, insertion order). -/
def lookupA {β : Type} (l : List (String × β)) (k : String) : Option β :=
  (l.find? (fun e => e.1 = k)).map (fun e => e.2)

/-- The `self.params[...] = Param(...)` assignments performed by
`TextboxComponent.__init__` after the base-class call, in source order. -/
def textboxOwnParams (a : TextboxArgs) : List (String × TBParam) :=
  [ ("text", ⟨.lstr a.text, "str"⟩),
    ("font", ⟨.lstr a.font, "str"⟩),
    ("letterHeight", ⟨a.letterHeight, "code"⟩),
    ("wrapWidth", ⟨a.wrapWidth, "code"⟩),
    ("flipHoriz", ⟨.lbool a.flipVert, "bool"⟩),
    ("flipVert", ⟨.lbool a.flipHoriz, "bool"⟩),
    ("languageStyle", ⟨.lstr a.languageStyle, "str"⟩),
    ("italic", ⟨.lbool a.italic, "bool"⟩),
    ("bold", ⟨.lbool a.bold, "bool"⟩),
    ("lineSpacing", ⟨a.lineSpacing, "num"⟩),
    ("padding", ⟨a.padding, "code"⟩),
    ("boxsizing", ⟨.lbool a.boxsizing, "bool"⟩),
    ("anchorY", ⟨.lstr a.anchorY, "str"⟩),
    ("fillColor", ⟨a.fillColor, "str"⟩),
    ("borderColor", ⟨a.borderColor, "str"⟩),
    ("borderWidth", ⟨a.borderWidth, "num"⟩),
    ("editable", ⟨.lbool a.editable, "bool"⟩),
    ("autoLog", ⟨a.autoLog, "code"⟩) ]

/-- C9: in every construction of the Textbox builder component, the value
stored under `params['flipHoriz']` is the `flipVert` constructor argument
and the value stored under `params['flipVert']` is the `flipHoriz`
constructor argument — the two flip arguments are exchanged when
populating the params mapping. -/
theorem textbox_flip_args_swapped (a : TextboxArgs) :
    lookupA (textboxOwnParams a) "flipHoriz" = some ⟨.lbool a.flipVert, "bool"⟩ ∧
    lookupA (textboxOwnParams a) "flipVert" = some ⟨.lbool a.flipHoriz, "bool"⟩ := by
  constructor <;> rfl


/- ===================================================================
   Section 4: `psychopy/app/builder/experiment.py :: Routine.getMaxTime`
   (claim C5)

       def getMaxTime(self):
           maxTime=0
           times=[]
           for event in self:
               if 'startTime' not in event.params.keys(): continue
               if event.params['duration'].val in ['-1', ''] \
                   or '$' in [event.params['startTime'].val[0],
                              event.params['duration'].val[0]]:
                   maxTime=FOREVER
               else:
                   exec("maxTime=%(startTime)s+%(duration)s" %(event.params))
               times.append(maxTime)
               maxTime=float(max(times))
           return maxTime

   A component is embedded as `none` (no 'startTime' param, skipped) or
   `some (startTimeVal, durationVal)` with the two `.val` strings.  The
   `exec` evaluates the rendered parameter text; for the literal numeric
   values the claim is about, the legacy `Param.__str__` renders the text
   itself, so the `exec` computes the sum of the two decimal literals.
   Non-literal text would make `exec` run arbitrary code; the embedding
   returns `none` for it (and for the `IndexError` on `.val[0]` of an
   empty startTime), keeping the defined fragment exactly the literal
   one.  Numbers are modelled as rationals.
   =================================================================== -/

/-- Natural value of a digit run. -/
def digitsVal (cs : List Char) : Nat :=
  cs.foldl (fun n c => n * 10 + (c.toNat - 48)) 0

/-- Unsigned Python decimal literal: `digits`, `digits.digits`, `.digits`
or `digits.` (the decimal int/float literal shapes). -/
def parseUnsignedNum (cs : List Char) : Option ℚ :=
  let ip := cs.takeWhile Char.isDigit
  let rest := cs.dropWhile Char.isDigit
  match rest with
  | [] => if ip = [] then none else some (digitsVal ip)
  | '.' :: fp =>
    if fp.all Char.isDigit ∧ (ip ≠ [] ∨ fp ≠ []) then
      some ((digitsVal ip : ℚ) + (digitsVal fp : ℚ) / ((10 : ℚ) ^ fp.length))
    else none
  | _ => none

/-- Python evaluation of a (possibly negated) decimal numeric literal, the
fragment of `exec` behaviour the claim exercises. -/
def parsePyNum (s : String) : Option ℚ :=
  match s.data with
  | '-' :: rest => (parseUnsignedNum rest).map Neg.neg
  | cs => parseUnsignedNum cs

/-- Modelled from the spec: `FOREVER` is imported from `psychopy.constants`,
a module not among the provided sources.  The spec describes it only as
"a designated unbounded (\"FOREVER\") sentinel value"; it is modelled here
as the concrete large constant 1000000000. -/
def FOREVER : ℚ := 1000000000

/-- Python's binary `max` step: scanning keeps the current value unless the
candidate is strictly larger. -/
def pyMax2 (a b : ℚ) : ℚ :=
  if a < b then b else a

/-- Python `max` over a list (raises on the empty list, hence `Option`);
this is `max(times)` in `getMaxTime`. -/
def pyMax : List ℚ → Option ℚ
  | [] => none
  | x :: xs => some (xs.foldl pyMax2 x)

/-- The value a timed component contributes to `times`: `FOREVER` for a
`'-1'`/empty duration or a `$`-initial start/duration, otherwise the
`exec`-computed sum of the two literals (`none` when `exec` would not be
evaluating a plain literal sum, or on the `IndexError` of `.val[0]` for an
empty startTime). -/
def timedContrib (c : String × String) : Option ℚ :=
  if c.2 = "-1" ∨ c.2 = "" then some FOREVER
  else
    match c.1.data.head?, c.2.data.head? with
    | some sc, some dc =>
      if sc = '$' ∨ dc = '$' then some FOREVER
      else do
        let a ← parsePyNum c.1
        let b ← parsePyNum c.2
        pure (a + b)
    | _, _ => none

/-- The loop of `getMaxTime`: `maxTime` and `times` are the mutable locals,
the list argument the remaining components. -/
def getMaxTimeLoop : ℚ → List ℚ → List (Option (String × String)) → Option ℚ
  | maxTime, _, [] => some maxTime
  | maxTime, times, none :: rest => getMaxTimeLoop maxTime times rest
  | _, times, some c :: rest => do
    let t ← timedContrib c
    let times2 := times ++ [t]
    let m ← pyMax times2
    getMaxTimeLoop m times2 rest

/-- `Routine.getMaxTime` over the embedded component list. -/
def getMaxTime (comps : List (Option (String × String))) : Option ℚ :=
  getMaxTimeLoop 0 [] comps

/-- The contributions of the timed components, in order (`none` if any
timed component is outside the literal fragment). -/
def contribsOf : List (Option (String × String)) → Option (List ℚ)
  | [] => some []
  | none :: rest => contribsOf rest
  | some c :: rest => do
    let t ← timedContrib c
    let cs ← contribsOf rest
    pure (t :: cs)

theorem le_pyMax2_left (a b : ℚ) : a ≤ pyMax2 a b := by
  unfold pyMax2
  split <;> [exact le_of_lt (by assumption); exact le_refl a]

theorem le_pyMax2_right (a b : ℚ) : b ≤ pyMax2 a b := by
  unfold pyMax2
  split <;> [exact le_refl b; exact le_of_not_lt (by assumption)]

theorem pyMax2_cases (a b : ℚ) : pyMax2 a b = a ∨ pyMax2 a b = b := by
  unfold pyMax2
  split <;> [right; left] <;> rfl

theorem foldl_pyMax2_spec (xs : List ℚ) :
    ∀ x : ℚ, xs.foldl pyMax2 x ∈ x :: xs ∧ ∀ q ∈ x :: xs, q ≤ xs.foldl pyMax2 x := by
  induction xs with
  | nil => intro x; simp
  | cons y ys ih =>
    intro x
    obtain ⟨hmem, hbound⟩ := ih (pyMax2 x y)
    constructor
    · simp only [List.foldl_cons]
      rcases List.mem_cons.mp hmem with h | h
    
      · rcases pyMax2_cases x y with hc | hc <;> rw [h, hc]
        · exact List.mem_cons_self _ _
        · exact List.mem_cons_of_mem _ (List.mem_cons_self _ _)
      · exact List.mem_cons_of_mem _ (List.mem_cons_of_mem _ h)
    · intro q hq
      simp only [List.foldl_cons]
      rcases List.mem_cons.mp hq with h | h
      · subst h
        exact le_trans (le_pyMax2_left q y) (hbound _ (List.mem_cons_self _ _))
      · rcases List.mem_cons.mp h with h2 | h2
        · subst h2
          exact le_trans (le_pyMax2_right x q) (hbound _ (List.mem_cons_self _ _))
        · exact hbound q (List.mem_cons_of_mem _ h2)

theorem pyMax_mem_and_bound (l : List ℚ) (m : ℚ) (h : pyMax l = some m) :
    m ∈ l ∧ ∀ q ∈ l, q ≤ m := by
  cases l with
  | nil => simp [pyMax] at h
  | cons x xs =>
    simp only [pyMax, Option.some.injEq] at h
    subst h
    exact foldl_pyMax2_spec xs x

theorem pyMax_append_singleton (l : List ℚ) (t : ℚ) :
    pyMax (l ++ [t]) = some (match pyMax l with
      | none => t
      | some m => pyMax2 m t) := by
  cases l with
  | nil => simp [pyMax]
  | cons x xs => simp [pyMax, List.foldl_append]

theorem getMaxTimeLoop_spec (comps : List (Option (String × String))) :
    ∀ (cs : List ℚ) (m : ℚ) (times : List ℚ),
      contribsOf comps = some cs →
      getMaxTimeLoop m times comps = if cs = [] then some m else pyMax (times ++ cs) := by
  induction comps with
  | nil =>
    intro cs m times h
    have hcs : [] = cs := Option.some.inj h
    subst hcs
    simp [getMaxTimeLoop]
  | cons c rest ih =>
    intro cs m times h
    cases c with
    | none =>
      rw [getMaxTimeLoop]
      exact ih cs m times h
    | some p =>
      rw [contribsOf] at h
      cases ht : timedContrib p with
      | none => rw [ht] at h; simp at h
      | some t =>
        rw [ht] at h
        cases hrest : contribsOf rest with
        | none => rw [hrest] at h; simp at h
        | some cs2 =>
          rw [hrest] at h
          have hcs : t :: cs2 = cs := Option.some.inj h
          subst hcs
          rw [getMaxTimeLoop, ht]
          show ((pyMax (times ++ [t])).bind fun m2 =>
              getMaxTimeLoop m2 (times ++ [t]) rest) = _
          rw [pyMax_append_singleton times t]
          show getMaxTimeLoop
              (match pyMax times with | none => t | some m2 => pyMax2 m2 t)
              (times ++ [t]) rest = _
          rw [ih cs2 _ (times ++ [t]) hrest]
          cases cs2 with
          | nil =>
            rw [if_pos rfl, if_neg (by simp)]
            simpa using (pyMax_append_singleton times t).symm
          | cons y ys =>
            rw [if_neg (by simp), if_neg (by simp)]
            rw [List.append_assoc, List.singleton_append]

/-- For a routine whose timed components all lie in the literal fragment,
`getMaxTime` is the Python `max` of the contribution list. -/
theorem getMaxTime_eq_pyMax (comps : List (Option (String × String))) (cs : List ℚ)
    (h : contribsOf comps = some cs) (hne : cs ≠ []) :
    getMaxTime comps = pyMax cs := by
  unfold getMaxTime
  rw [getMaxTimeLoop_spec comps cs 0 [] h, if_neg hne]
  cases cs with
  | nil => exact absurd rfl hne
  | cons y ys => simp

theorem timedContrib_zero_bigdur :
    timedContrib ("0", "2000000000") =
      some ((digitsVal ['0'] : ℚ) +
        (digitsVal ['2', '0', '0', '0', '0', '0', '0', '0', '0', '0'] : ℚ)) := rfl

theorem timedContrib_minus_one (s : String) :
    timedContrib (s, "-1") = some FOREVER := by
  unfold timedContrib
  rw [if_pos (Or.inl rfl)]

theorem char_digit_sub_vals :
    '0'.toNat - 48 = 0 ∧ '1'.toNat - 48 = 1 ∧ '2'.toNat - 48 = 2 ∧
    '5'.toNat - 48 = 5 := by decide

theorem timedContrib_zero_bigdur_val :
    timedContrib ("0", "2000000000") = some 2000000000 := by
  rw [timedContrib_zero_bigdur]
  obtain ⟨h0, h1, h2, h5⟩ := char_digit_sub_vals
  norm_num [digitsVal, h0, h2]

/-- C5 counterexample: the claim says a routine containing a component with
duration `'-1'` reports the FOREVER sentinel regardless of the other
components' values, but `getMaxTime` takes the `max` of all the
contributions, so a literal component ending after the sentinel wins: with
components (start 0, duration 2000000000) and (start 0, duration '-1'),
the result is 2000000000, not FOREVER. -/
theorem getMaxTime_sentinel_not_dominant :
    getMaxTime [some ("0", "2000000000"), some ("0", "-1")] = some 2000000000 ∧
    (2000000000 : ℚ) ≠ FOREVER := by
  constructor
  · have hc : contribsOf [some ("0", "2000000000"), some ("0", "-1")] =
        some [2000000000, FOREVER] := by
      rw [contribsOf, timedContrib_zero_bigdur_val, contribsOf,
        timedContrib_minus_one, contribsOf]
      rfl
    rw [getMaxTime_eq_pyMax _ _ hc (by simp)]
    have : pyMax2 2000000000 FOREVER = 2000000000 := by
      unfold pyMax2 FOREVER
      norm_num
    simp [pyMax, this]
  · unfold FOREVER
    norm_num

theorem timedContrib_half_one :
    timedContrib ("0.5", "1.0") = some ((3 : ℚ) / 2) := by
  have h : timedContrib ("0.5", "1.0") =
      some (((digitsVal ['0'] : ℚ) + (digitsVal ['5'] : ℚ) / (10 : ℚ) ^ (1 : ℕ)) +
        ((digitsVal ['1'] : ℚ) + (digitsVal ['0'] : ℚ) / (10 : ℚ) ^ (1 : ℕ))) := rfl
  rw [h]
  obtain ⟨h0, h1, h2, h5⟩ := char_digit_sub_vals
  norm_num [digitsVal, h0, h1, h5]

theorem timedContrib_zero_two :
    timedContrib ("0.0", "2.0") = some (2 : ℚ) := by
  have h : timedContrib ("0.0", "2.0") =
      some (((digitsVal ['0'] : ℚ) + (digitsVal ['0'] : ℚ) / (10 : ℚ) ^ (1 : ℕ)) +
        ((digitsVal ['2'] : ℚ) + (digitsVal ['0'] : ℚ) / (10 : ℚ) ^ (1 : ℕ))) := rfl
  rw [h]
  obtain ⟨h0, h1, h2, h5⟩ := char_digit_sub_vals
  norm_num [digitsVal, h0, h2]

/-- C5 (amended): for every routine whose timed components all lie in the
literal fragment, `getMaxTime` returns the maximum of the per-component
contributions, where a component with literal numeric start/duration
contributes start+duration and a component with duration `'-1'`/empty or a
`$`-initial start/duration contributes the FOREVER sentinel; consequently
the two-component example ending at 1.5 and 2.0 yields 2.0, and a routine
containing a sentinel component yields FOREVER provided no literal
component's start+duration exceeds the sentinel value. -/
theorem getMaxTime_is_max_of_contributions :
    (∀ (comps : List (Option (String × String))) (cs : List ℚ),
        contribsOf comps = some cs → cs ≠ [] →
        getMaxTime comps = pyMax cs) ∧
    (∀ (comps : List (Option (String × String))) (cs : List ℚ),
        contribsOf comps = some cs → FOREVER ∈ cs → (∀ q ∈ cs, q ≤ FOREVER) →
        getMaxTime comps = some FOREVER) ∧
    getMaxTime [some ("0.5", "1.0"), some ("0.0", "2.0")] = some 2 ∧
    getMaxTime [some ("0.5", "1.0"), some ("0", "-1")] = some FOREVER := by
  refine ⟨getMaxTime_eq_pyMax, ?_, ?_, ?_⟩
  · intro comps cs h hmem hbound
    have hne : cs ≠ [] := by
      intro hnil
      subst hnil
      simp at hmem
    rw [getMaxTime_eq_pyMax comps cs h hne]
    cases hm : pyMax cs with
    | none =>
      cases cs with
      | nil => exact absurd rfl hne
      | cons y ys => simp [pyMax] at hm
    | some m =>
      obtain ⟨hmmem, hmbound⟩ := pyMax_mem_and_bound cs m hm
      have hle : m ≤ FOREVER := hbound m hmmem
      have hge : FOREVER ≤ m := hmbound FOREVER hmem
      rw [le_antisymm hle hge]
  · have hc : contribsOf [some ("0.5", "1.0"), some ("0.0", "2.0")] =
        some [(3 : ℚ) / 2, 2] := by
      rw [contribsOf, timedContrib_half_one, contribsOf, timedContrib_zero_two,
        contribsOf]
      rfl
    rw [getMaxTime_eq_pyMax _ _ hc (by simp)]
    have hp : pyMax2 ((3 : ℚ) / 2) 2 = 2 := by
      unfold pyMax2
      norm_num
    simp [pyMax, hp]
  · have hc : contribsOf [some ("0.5", "1.0"), some ("0", "-1")] =
        some [(3 : ℚ) / 2, FOREVER] := by
      rw [contribsOf, timedContrib_half_one, contribsOf, timedContrib_minus_one,
        contribsOf]
      rfl
    rw [getMaxTime_eq_pyMax _ _ hc (by simp)]
    have hp : pyMax2 ((3 : ℚ) / 2) FOREVER = FOREVER := by
      unfold pyMax2 FOREVER
      norm_num
    simp [pyMax, hp]

/-- Witness for C5's amended theorem: a single-component routine with
literal start `'1'` and duration `'2'` satisfies the hypotheses concretely
and yields the maximum of its contribution list. -/
theorem getMaxTime_is_max_of_contributions_witness :
    getMaxTime [some ("1", "2")] = pyMax [(digitsVal ['1'] : ℚ) + (digitsVal ['2'] : ℚ)] :=
  getMaxTime_is_max_of_contributions.1 [some ("1", "2")]
    [(digitsVal ['1'] : ℚ) + (digitsVal ['2'] : ℚ)] rfl (by simp)


/- ===================================================================
   Section 5: `psychopy/app/builder/experiment.py :: NameSpace`
   (claim C3)

   `NameSpace.__init__` fixes four reserved categories (numpy symbols,
   python keywords+builtins, psychopy modules, builder internals) plus the
   mutable `user` list.  The numpy category is `dir(numpy)+dir(numpy.random)`
   of the external numpy library, so it is a parameter of the embedding;
   the other three lists are literal in the source and transcribed.

   `exists` checks the categories in the order user, builder, psychopy,
   numpy, keywords and returns a describing string (truthy) or None.
   `is_valid` matches `^[a-zA-Z_][\\w]*$`; `\\w` and `\\W` are modelled over
   ASCII, as all names involved are ASCII.  `make_valid` legalises the
   name (prefix when empty or digit-initial, non-word chars to `_`), then
   brute-forces uniqueness: starting from `i = 2` (or the numeric suffix
   already on the name), it appends an underscore and `i` with increasing
   `i` while `exists` claims the candidate.  The unbounded `while` loop is
   embedded with a fuel of (number of claimed names + 1); every iteration
   tries a distinct candidate, so the fuel is never exhausted on finite
   categories.
   =================================================================== -/

/-- The five name categories of `NameSpace`; `numpy` holds whatever
`dir(numpy)+dir(numpy.random)` yields in the hosting environment. -/
structure NameSpaceLists where
  numpy : List String
  keywords : List String
  psychopy : List String
  builder : List String
  user : List String
deriving DecidableEq, Repr

/-- The literal `self.keywords` list of `NameSpace.__init__`. -/
def nsKeywords : List String := [
    "and", "del", "from", "not", "while", "as",
    "elif", "global", "or", "with", "assert", "else",
    "if", "pass", "yield", "break", "except", "import",
    "print", "class", "exec", "in", "raise", "continue",
    "finally", "is", "return", "def", "for", "lambda",
    "try", "abs", "all", "any", "apply", "basestring",
    "bin", "bool", "buffer", "bytearray", "bytes", "callable",
    "chr", "classmethod", "cmp", "coerce", "compile", "complex",
    "copyright", "credits", "delattr", "dict", "dir", "divmod",
    "enumerate", "eval", "execfile", "exit", "file", "filter",
    "float", "format", "frozenset", "getattr", "globals", "hasattr",
    "hash", "help", "hex", "id", "input", "int",
    "intern", "isinstance", "issubclass", "iter", "len", "license",
    "list", "locals", "long", "map", "max", "memoryview",
    "min", "next", "object", "oct", "open", "ord",
    "pow", "print", "property", "quit", "range", "raw_input",
    "reduce", "reload", "repr", "reversed", "round", "set",
    "setattr", "slice", "sorted", "staticmethod", "str", "sum",
    "super", "tuple", "type", "unichr", "unicode", "vars",
    "xrange", "zip", "clear", "copy", "fromkeys", "get",
    "has_key", "items", "iteritems", "iterkeys", "itervalues", "keys",
    "pop", "popitem", "setdefault", "update", "values", "viewitems",
    "viewkeys", "viewvalues", "__builtins__", "__doc__", "__file__", "__name__",
    "__package__" ]

/-- The literal `self.psychopy` list of `NameSpace.__init__`. -/
def nsPsychopy : List String :=
  ["psychopy", "os", "core", "data", "visual", "event", "gui"]

/-- The literal `self.builder` list of `NameSpace.__init__`. -/
def nsBuilder : List String :=
  ["KeyResponse", "buttons", "continueTrial", "dlg", "expInfo", "expName",
    "filename", "logFile", "t", "theseKeys", "win", "x", "y", "level"]

/-- A fresh `NameSpace` (empty user list) over a given numpy environment. -/
def nsDefault (numpyEnv : List String) : NameSpaceLists :=
  { numpy := numpyEnv, keywords := nsKeywords, psychopy := nsPsychopy,
    builder := nsBuilder, user := [] }

/-- `NameSpace.add(name)`: appends to the user list. -/
def nsAddUser (ns : NameSpaceLists) (name : String) : NameSpaceLists :=
  { ns with user := ns.user ++ [name] }

/-- `NameSpace.exists(name)`: the category message, checked in the fixed
order user, builder, psychopy, numpy, keywords; `none` is Python None. -/
def nsExists (ns : NameSpaceLists) (name : String) : Option String :=
  if name ∈ ns.user then some "script variable"
  else if name ∈ ns.builder then some "Builder variable"
  else if name ∈ ns.psychopy then some "Psychopy module"
  else if name ∈ ns.numpy then some "numpy function"
  else if name ∈ ns.keywords then some "python keyword"
  else none

/-- `NameSpace.is_valid(name)`: match of the legal-variable pattern
(letter or underscore, then word characters; ASCII). -/
def is_valid (name : String) : Bool :=
  match name.data with
  | [] => false
  | c :: rest =>
    (c.isAlpha || c = '_') && rest.all (fun d => d.isAlphanum || d = '_')

/-- The non-alphanumeric substitution of `make_valid`: every character
that is not a letter, digit or underscore (ASCII) becomes an underscore. -/
def subNonAlphanumeric (s : String) : String :=
  String.mk (s.data.map fun c => if c.isAlphanum || c = '_' then c else '_')

/-- Python `name.rsplit` at the last underscore, for a name known to
contain one: the part before it and the part after it. -/
def rsplitUnderscore (s : String) : String × String :=
  let rev := s.data.reverse
  let after := rev.takeWhile (fun c => c != '_')
  (String.mk (s.data.take (s.data.length - after.length - 1)),
   String.mk after.reverse)

/-- Python `int(count)` on the (word-character) suffix produced by
`rsplit`: defined exactly on digit runs, the only shape `int` accepts
among suffixes of an identifier. -/
def pyIntOfSuffix (s : String) : Option Nat :=
  if s ≠ "" && s.data.all Char.isDigit then some (digitsVal s.data) else none

/-- The `while self.exists(name)` loop of `make_valid` appending an
underscore and an increasing counter, with explicit fuel.  Every
iteration tries a fresh candidate, so any fuel exceeding the number of
claimed names exits through the `else` branch, exactly as the Python
loop terminates. -/
def makeValidBrute (ns : NameSpaceLists) (nameOrig : String) :
    Nat → String → Nat → String
  | 0, name, _ => name
  | fuel + 1, name, i =>
    if (nsExists ns name).isSome then
      makeValidBrute ns nameOrig fuel (nameOrig ++ toString i) (i + 1)
    else name

/-- Fuel that upper-bounds the number of iterations the brute-force loop
can need: one more than the total number of claimed names. -/
def nsFuel (ns : NameSpaceLists) : Nat :=
  (ns.user ++ ns.builder ++ ns.psychopy ++ ns.numpy ++ ns.keywords).length + 1

/-- `NameSpace.make_valid(name, prefix)` (with `add_to_space` left at its
None default): legalise, then increment an underscore-counter suffix from
`i = 2` (or from the numeric suffix the name already carries) until the
candidate is unclaimed. -/
def make_valid (ns : NameSpaceLists) (name : String) (pfx : String) : String :=
  let name1 := if name = "" then pfx ++ "_1" else name
  let name2 :=
    if ((name1.data.head?.map Char.isDigit).getD false) then pfx ++ "_" ++ name1
    else name1
  let name3 := subNonAlphanumeric name2
  let start :=
    if (nsExists ns name3).isSome && name3.data.contains '_' then
      let bc := rsplitUnderscore name3
      match pyIntOfSuffix bc.2 with
      | some k => (bc.1, k)
      | none => (name3, 2)
    else (name3, 2)
  let nameOrig := start.1 ++ "_"
  makeValidBrute ns nameOrig (nsFuel ns) start.1 start.2

set_option maxRecDepth 100000 in
/-- C3: the claim (and the docstring of `make_valid` itself) says three
successive `make_valid` calls on the colliding input `a`, each result
added to the user list, yield `a`, `a_1`, `a_2`.  The brute-force suffix
starts at `i = 2`, so the code actually yields `a`, `a_2`, `a_3`: the
second call never returns `a_1`.  (The numpy category is the external
environment; it is taken empty here, and `dir(numpy)` contains none of
these names.) -/
theorem make_valid_suffix_starts_at_two :
    make_valid (nsDefault []) "a" "var" = "a" ∧
    make_valid (nsAddUser (nsDefault []) "a") "a" "var" = "a_2" ∧
    make_valid (nsAddUser (nsAddUser (nsDefault []) "a") "a_2") "a" "var" = "a_3" ∧
    ("a_2" : String) ≠ "a_1" := by
  refine ⟨by decide, by decide, by decide, by decide⟩


/- ===================================================================
   Section 6: `psychopy/iohub/util/__init__.py :: NumPyRingBuffer`
   (claims C6 and C10)

   The buffer keeps a backing numpy array of length `2 * max_size`
   (created with `numpy.empty`, i.e. arbitrary initial contents) and a
   monotone write counter `_index`:

       def append(self, element):
           i = self._index
           self._npa[i % self.max_size] = element
           self._npa[(i % self.max_size) + self.max_size] = element
           self._index += 1

       def getElements(self):
           return self._npa[self._index % self.max_size:
                            (self._index % self.max_size) + self.max_size]

       def isFull(self): return self._index >= self.max_size
       def __len__(self): return self.max_size if self.isFull() else self._index
       def __getitem__(self, indexs):  # int and slice cases
           current_array = self.getElements()
           ... return current_array[indexs]
       def __getattr__(self, a):
           if self._index < self.max_size:
               return getattr(self._npa[:self._index], a)
           return getattr(self._npa[self._index % self.max_size:
                                    (self._index % self.max_size) + self.max_size], a)

   The backing array is embedded as a total function `Nat → α` (indices
   at and beyond `2 * max_size` are never read or written by the embedded
   operations); `numpy.empty` makes the initial contents arbitrary, so
   the initial function is a parameter.
   =================================================================== -/

/-- The `NumPyRingBuffer` state: backing array, capacity, write counter. -/
structure RingBuffer (α : Type) where
  npa : Nat → α
  max_size : Nat
  index : Nat

/-- `NumPyRingBuffer.append`: writes the element at `index % max_size` and
at the mirrored slot `max_size` higher, then bumps the counter. -/
def ringAppend {α : Type} (b : RingBuffer α) (e : α) : RingBuffer α :=
  { b with
    npa := Function.update
      (Function.update b.npa (b.index % b.max_size) e)
      (b.index % b.max_size + b.max_size) e,
    index := b.index + 1 }

/-- A sequence of `append` calls. -/
def appendAll {α : Type} (b : RingBuffer α) (xs : List α) : RingBuffer α :=
  xs.foldl ringAppend b

/-- `NumPyRingBuffer.getElements`: the `max_size`-length window of the
backing array starting at `index % max_size`. -/
def getElements {α : Type} (b : RingBuffer α) : List α :=
  (List.range b.max_size).map (fun k => b.npa (b.index % b.max_size + k))

/-- `NumPyRingBuffer.isFull`. -/
def ringIsFull {α : Type} (b : RingBuffer α) : Bool :=
  b.max_size ≤ b.index

/-- `NumPyRingBuffer.__len__`. -/
def ringLen {α : Type} (b : RingBuffer α) : Nat :=
  if ringIsFull b then b.max_size else b.index

/-- `NumPyRingBuffer.__getitem__` with a non-negative integer index:
`self.getElements()[i]` (out of range models numpy's IndexError). -/
def ringGetItem {α : Type} (b : RingBuffer α) (i : Nat) : Option α :=
  (getElements b).get? i

/-- `NumPyRingBuffer.__getitem__` with the full slice (`buffer[:]`):
`self.getElements()[:]`. -/
def ringGetSliceAll {α : Type} (b : RingBuffer α) : List α :=
  getElements b

/-- The array view that `__getattr__` delegates unknown attributes (array
methods, reductions, ...) to. -/
def ringDelegatedView {α : Type} (b : RingBuffer α) : List α :=
  if b.index < b.max_size then (List.range b.index).map b.npa
  else getElements b

theorem ringAppend_npa {α : Type} (b : RingBuffer α) (e : α) (p : Nat) :
    (ringAppend b e).npa p =
      if p = b.index % b.max_size ∨ p = b.index % b.max_size + b.max_size then e
      else b.npa p := by
  unfold ringAppend
  simp only [Function.update_apply]
  rcases Decidable.em (p = b.index % b.max_size + b.max_size) with h1 | h1 <;>
    rcases Decidable.em (p = b.index % b.max_size) with h2 | h2 <;>
    simp [h1, h2]

theorem appendAll_index {α : Type} (xs : List α) :
    ∀ b : RingBuffer α, (appendAll b xs).index = b.index + xs.length := by
  induction xs with
  | nil => intro b; simp [appendAll]
  | cons x t ih =>
    intro b
    show (appendAll (ringAppend b x) t).index = _
    rw [ih (ringAppend b x)]
    simp [ringAppend]
    omega

theorem appendAll_max_size {α : Type} (xs : List α) :
    ∀ b : RingBuffer α, (appendAll b xs).max_size = b.max_size := by
  induction xs with
  | nil => intro b; rfl
  | cons x t ih =>
    intro b
    show (appendAll (ringAppend b x) t).max_size = _
    rw [ih (ringAppend b x)]
    rfl

/-- Distinct in-batch offsets land on distinct slots: adding `0 < d < C`
moves the write slot. -/
theorem mod_shift_ne (C i d : Nat) (hd0 : 0 < d) (hdC : d < C) :
    (i + d) % C ≠ i % C := by
  intro h
  have hmodeq : i ≡ i + d [MOD C] := by
    unfold Nat.ModEq
    omega
  have hdvd : C ∣ i + d - i := (Nat.modEq_iff_dvd' (Nat.le_add_right i d)).mp hmodeq
  have : C ∣ d := by simpa using hdvd
  exact absurd (Nat.le_of_dvd hd0 this) (not_le.mpr hdC)

/-- A backing-array slot not written by any append of the batch keeps its
previous value. -/
theorem appendAll_npa_miss {α : Type} (xs : List α) :
    ∀ (b : RingBuffer α) (p : Nat),
      (∀ j, j < xs.length →
        p ≠ (b.index + j) % b.max_size ∧
        p ≠ (b.index + j) % b.max_size + b.max_size) →
      (appendAll b xs).npa p = b.npa p := by
  induction xs with
  | nil => intro b p _; rfl
  | cons x t ih =>
    intro b p hmiss
    have hmisst : ∀ j, j < t.length →
        p ≠ ((ringAppend b x).index + j) % (ringAppend b x).max_size ∧
        p ≠ ((ringAppend b x).index + j) % (ringAppend b x).max_size +
          (ringAppend b x).max_size := by
      intro j hj
      have h := hmiss (j + 1) (by simp only [List.length_cons]; omega)
      have hidx : (ringAppend b x).index = b.index + 1 := rfl
      have hms : (ringAppend b x).max_size = b.max_size := rfl
      rw [hidx, hms]
      have harith : b.index + 1 + j = b.index + (j + 1) := by omega
      rw [harith]
      exact h
    have hmiss0 : ¬(p = b.index % b.max_size ∨
        p = b.index % b.max_size + b.max_size) := by
      have h := hmiss 0 (by simp)
      simp only [Nat.add_zero] at h
      tauto
    show (appendAll (ringAppend b x) t).npa p = _
    rw [ih (ringAppend b x) p hmisst, ringAppend_npa, if_neg hmiss0]

/-- The slot pair written by the `k`-th append of a batch of at most
`max_size` appends holds that element afterwards (no later append of the
batch overwrites it). -/
theorem appendAll_npa_hit {α : Type} (xs : List α) :
    ∀ (b : RingBuffer α), 0 < b.max_size → xs.length ≤ b.max_size →
      ∀ (k : Nat) (hk : k < xs.length),
        (appendAll b xs).npa ((b.index + k) % b.max_size) = xs.get ⟨k, hk⟩ ∧
        (appendAll b xs).npa ((b.index + k) % b.max_size + b.max_size) =
          xs.get ⟨k, hk⟩ := by
  induction xs with
  | nil => intro b _ _ k hk; exact absurd hk (by simp)
  | cons x t ih =>
    intro b hC hlen k hk
    have hidx : (ringAppend b x).index = b.index + 1 := rfl
    have hms : (ringAppend b x).max_size = b.max_size := rfl
    have hlent : t.length ≤ b.max_size := by
      simp only [List.length_cons] at hlen
      omega
    cases k with
    | zero =>
      have hlt : b.index % b.max_size < b.max_size := Nat.mod_lt _ hC
      have hmiss : ∀ j, j < t.length →
          b.index % b.max_size ≠
            ((ringAppend b x).index + j) % (ringAppend b x).max_size ∧
          b.index % b.max_size ≠
            ((ringAppend b x).index + j) % (ringAppend b x).max_size +
              (ringAppend b x).max_size := by
        intro j hj
        rw [hidx, hms]
        have harith : b.index + 1 + j = b.index + (1 + j) := by omega
        rw [harith]
        have hne : (b.index + (1 + j)) % b.max_size ≠ b.index % b.max_size := by
          refine mod_shift_ne b.max_size b.index (1 + j) (by omega) ?_
          simp only [List.length_cons] at hlen
          omega
        have hlt2 : (b.index + (1 + j)) % b.max_size < b.max_size :=
          Nat.mod_lt _ hC
        exact ⟨fun hc => hne hc.symm, by omega⟩
      have hmiss2 : ∀ j, j < t.length →
          b.index % b.max_size + b.max_size ≠
            ((ringAppend b x).index + j) % (ringAppend b x).max_size ∧
          b.index % b.max_size + b.max_size ≠
            ((ringAppend b x).index + j) % (ringAppend b x).max_size +
              (ringAppend b x).max_size := by
        intro j hj
        obtain ⟨hA, hB⟩ := hmiss j hj
        rw [hidx, hms] at hA hB ⊢
        have hlt2 : (b.index + 1 + j) % b.max_size < b.max_size := Nat.mod_lt _ hC
        exact ⟨by omega, by omega⟩
      constructor
      · show (appendAll (ringAppend b x) t).npa ((b.index + 0) % b.max_size) = x
        simp only [Nat.add_zero]
        rw [appendAll_npa_miss t (ringAppend b x) _ hmiss, ringAppend_npa]
        simp
      · show (appendAll (ringAppend b x) t).npa
            ((b.index + 0) % b.max_size + b.max_size) = x
        simp only [Nat.add_zero]
        rw [appendAll_npa_miss t (ringAppend b x) _ hmiss2, ringAppend_npa]
        simp
    | succ k2 =>
      have hk2 : k2 < t.length := by
        simp only [List.length_cons] at hk
        omega
      have hres := ih (ringAppend b x) (by rw [hms]; exact hC)
        (by rw [hms]; exact hlent) k2 hk2
      rw [hidx, hms] at hres
      have harith : b.index + 1 + k2 = b.index + (k2 + 1) := by omega
      rw [harith] at hres
      exact ⟨hres.1, hres.2⟩

/-- After a batch of exactly `max_size` appends, the `getElements` window
holds precisely that batch, in append order. -/
theorem getElements_appendAll_batch {α : Type} (b : RingBuffer α)
    (xs : List α) (hC : 0 < b.max_size) (hlen : xs.length = b.max_size) :
    getElements (appendAll b xs) = xs := by
  have hms : (appendAll b xs).max_size = b.max_size := appendAll_max_size xs b
  have hidx : (appendAll b xs).index = b.index + xs.length := appendAll_index xs b
  have hlen2 : (getElements (appendAll b xs)).length = xs.length := by
    simp [getElements, hms, hlen]
  refine List.ext_get hlen2 ?_
  intro n h1 h2
  have hnC : n < b.max_size := by
    simp [getElements, hms] at h1
    exact h1
  have hval : (getElements (appendAll b xs)).get ⟨n, h1⟩ =
      (appendAll b xs).npa
        ((appendAll b xs).index % (appendAll b xs).max_size + n) := by
    simp [getElements]
  rw [hval, hidx, hms]
  have hw : (b.index + xs.length) % b.max_size = b.index % b.max_size := by
    rw [hlen]
    exact Nat.add_mod_right _ _
  rw [hw]
  have hwlt : b.index % b.max_size < b.max_size := Nat.mod_lt _ hC
  have hmod : (b.index % b.max_size + n) % b.max_size =
      (b.index + n) % b.max_size := Nat.mod_add_mod _ _ _
  have hkn : n < xs.length := h2
  rcases Decidable.em (b.index % b.max_size + n < b.max_size) with hin | hout
  · have heq : b.index % b.max_size + n = (b.index + n) % b.max_size := by
      rw [← hmod, Nat.mod_eq_of_lt hin]
    rw [heq]
    exact (appendAll_npa_hit xs b hC (by omega) n hkn).1
  · have hge : b.max_size ≤ b.index % b.max_size + n := not_lt.mp hout
    have hsub : (b.index + n) % b.max_size =
        b.index % b.max_size + n - b.max_size := by
      rw [← hmod, Nat.mod_eq_sub_mod hge, Nat.mod_eq_of_lt (by omega)]
    have heq : b.index % b.max_size + n =
        (b.index + n) % b.max_size + b.max_size := by
      rw [hsub]
      omega
    rw [heq]
    exact (appendAll_npa_hit xs b hC (by omega) n hkn).2

/-- C6: appending `N > C` elements to a `NumPyRingBuffer` of capacity
`C ≥ 1` (fresh, arbitrary initial backing contents) leaves `len == C`,
`isFull() == True`, and `buffer[:]` equal to the last `C` appended values
in append order — the oldest elements are silently evicted. -/
theorem ringBuffer_eviction {α : Type} (C : Nat) (hC : 1 ≤ C)
    (init : Nat → α) (xs : List α) (hN : C < xs.length) :
    ringLen (appendAll ⟨init, C, 0⟩ xs) = C ∧
    ringIsFull (appendAll ⟨init, C, 0⟩ xs) = true ∧
    ringGetSliceAll (appendAll ⟨init, C, 0⟩ xs) = xs.drop (xs.length - C) := by
  have hidx : (appendAll ⟨init, C, 0⟩ xs).index = xs.length := by
    rw [appendAll_index]
    simp
  have hms : (appendAll ⟨init, C, 0⟩ xs).max_size = C := appendAll_max_size xs _
  have hfull : ringIsFull (appendAll ⟨init, C, 0⟩ xs) = true := by
    simp only [ringIsFull, hidx, hms, decide_eq_true_eq]
    omega
  refine ⟨?_, hfull, ?_⟩
  · simp only [ringLen, hfull, if_true, hms]
  · have hsplit : xs.take (xs.length - C) ++ xs.drop (xs.length - C) = xs :=
      List.take_append_drop _ _
    have happ : appendAll ⟨init, C, 0⟩ xs =
        appendAll (appendAll ⟨init, C, 0⟩ (xs.take (xs.length - C)))
          (xs.drop (xs.length - C)) := by
      conv_lhs => rw [← hsplit]
      exact List.foldl_append _ _ _ _
    unfold ringGetSliceAll
    rw [happ]
    refine getElements_appendAll_batch _ _ ?_ ?_
    · simp only [appendAll_max_size]
      show 0 < C
      omega
    · simp only [appendAll_max_size]
      show (List.drop (xs.length - C) xs).length = C
      simp only [List.length_drop]
      omega

/-- Witness for C6: capacity 2, five integers appended; the buffer reports
length 2, fullness, and the last two values in order. -/
theorem ringBuffer_eviction_witness :
    ringLen (appendAll ⟨fun _ => (0 : Int), 2, 0⟩ [1, 2, 3, 4, 5]) = 2 ∧
    ringIsFull (appendAll ⟨fun _ => (0 : Int), 2, 0⟩ [1, 2, 3, 4, 5]) = true ∧
    ringGetSliceAll (appendAll ⟨fun _ => (0 : Int), 2, 0⟩ [1, 2, 3, 4, 5]) =
      [1, 2, 3, 4, 5].drop (([1, 2, 3, 4, 5] : List Int).length - 2) :=
  ringBuffer_eviction 2 (by decide) (fun _ => (0 : Int)) [1, 2, 3, 4, 5]
    (by decide)

/-- C10: before the buffer is full, `__getitem__` reads the fixed
`max_size`-length window starting at `index % max_size`, which covers
backing slots no append has written: after a single append of `5` into a
fresh capacity-2 buffer whose backing array initially holds `100 + p` at
slot `p`, `buffer[0]` is the unwritten initial cell `101`, not `5`.
Indexing returns the appended elements in order exactly once the buffer
is full, while `__len__` and the `__getattr__`-delegated array view
correctly use only the `n` appended elements, in order. -/
theorem ringBuffer_prefull_window_skew :
    (ringGetItem (ringAppend ⟨fun p => (100 + p : Int), 2, 0⟩ 5) 0 = some 101 ∧
      (101 : Int) ≠ 5) ∧
    (∀ (α : Type) (C : Nat) (init : Nat → α) (xs : List α),
        0 < xs.length → xs.length < C →
        ringDelegatedView (appendAll ⟨init, C, 0⟩ xs) = xs ∧
        ringLen (appendAll ⟨init, C, 0⟩ xs) = xs.length) ∧
    (∀ (α : Type) (C : Nat) (init : Nat → α) (xs : List α),
        0 < C → xs.length = C →
        ringGetSliceAll (appendAll ⟨init, C, 0⟩ xs) = xs) := by
  refine ⟨⟨by decide, by decide⟩, ?_, ?_⟩
  · intro α C init xs hpos hlt
    have hidx : (appendAll ⟨init, C, 0⟩ xs).index = xs.length := by
      rw [appendAll_index]
      simp
    have hms : (appendAll ⟨init, C, 0⟩ xs).max_size = C := appendAll_max_size xs _
    constructor
    · unfold ringDelegatedView
      rw [hidx, hms, if_pos hlt]
      have hlen2 : ((List.range xs.length).map
          (appendAll ⟨init, C, 0⟩ xs).npa).length = xs.length := by simp
      refine List.ext_get hlen2 ?_
      intro n h1 h2
      have hn : n < xs.length := by simpa using h1
      have hval : ((List.range xs.length).map
          (appendAll ⟨init, C, 0⟩ xs).npa).get ⟨n, h1⟩ =
          (appendAll ⟨init, C, 0⟩ xs).npa n := by
        simp
      rw [hval]
      have hhit := (appendAll_npa_hit xs ⟨init, C, 0⟩
        (show 0 < C by omega) (show xs.length ≤ C by omega) n hn).1
      simpa [Nat.mod_eq_of_lt (by omega : n < C)] using hhit
    · simp only [ringLen, ringIsFull, hidx, hms]
      have : ¬ C ≤ xs.length := by omega
      simp [this]
  · intro α C init xs hC hlen
    exact getElements_appendAll_batch _ _ (by simpa using hC) (by simpa using hlen)

/-- Witness for C10: one element into a capacity-3 buffer — the delegated
view is exactly that element and the length is 1; three elements fill a
capacity-3 buffer and are then read back in order. -/
theorem ringBuffer_prefull_window_skew_witness :
    (ringDelegatedView (appendAll ⟨fun _ => (0 : Int), 3, 0⟩ [7]) = [7] ∧
      ringLen (appendAll ⟨fun _ => (0 : Int), 3, 0⟩ [7]) = 1) ∧
    ringGetSliceAll (appendAll ⟨fun _ => (0 : Int), 3, 0⟩ [7, 8, 9]) = [7, 8, 9] :=
  ⟨ringBuffer_prefull_window_skew.2.1 Int 3 (fun _ => (0 : Int)) [7]
      (by decide) (by decide),
    ringBuffer_prefull_window_skew.2.2 Int 3 (fun _ => (0 : Int)) [7, 8, 9]
      (by decide) (by decide)⟩


/- ===================================================================
   Section 7: `psychopy/plugins/__init__.py :: loadPlugin`
   (claims C2 and C4)

   Global state touched by `loadPlugin`:
     _loaded_plugins_    : OrderedDict plugin name -> entry point map
     _installed_plugins_ : OrderedDict plugin name -> entry point map
     _failed_plugins_    : *list* of plugin names
   plus the Python namespaces the plugin assigns into (resolved by
   fully-qualified name), `sys.modules`, and the importable modules with
   their optional `__register__` hooks.  All of these are made explicit
   fields of `PluginState`.  An entry point map is an insertion-ordered
   association fqn -> (attr -> entry point); an entry point knows its
   `module_name` and what `ep.load()` yields (`none` = ImportError).

   Not modelled (outside the claims): the log messages; the two
   post-assignment special cases `_registerWindowBackend` and
   `_registerBuilderComponent`, which mutate registries in other modules
   and never touch the fqn -> attr namespaces; mutation of `sys.modules`
   inside `resolveObjectFromName`; and any effect of calling a
   `__register__` hook (the call is validated and performed but the hook
   body is arbitrary third-party code).

   `loadPlugin` returns `Except`: `Except.error` models an uncaught
   Python exception escaping the call, `Except.ok (b, st)` a normal
   return of `b` with the globals left in state `st`. -/

/-- A Python object reachable in the plugin machinery, as far as the
checks of `loadPlugin` distinguish them: modules (`inspect.ismodule`),
callables (`callable`), strings (`isinstance(..., str)`), `None`, and
everything else (tagged to keep distinct objects distinct). -/
inductive PyObj where
  | moduleObj
  | callableObj
  | strObj (s : String)
  | noneObj
  | plainObj (tag : String)
deriving DecidableEq, Repr

/-- One advertised entry point: the module it lives in and what
`ep.load()` returns (`none` models an ImportError raised by `load`). -/
structure EntryPoint where
  module_name : String
  loadVal : Option PyObj
deriving DecidableEq, Repr

/-- Attribute map of one extension-point group: attr name -> entry point. -/
abbrev EPAttrs := List (String × EntryPoint)

/-- Entry point map of one plugin: fqn of target group -> attributes. -/
abbrev EntryMap := List (String × EPAttrs)

/-- An importable module: whether `importlib.import_module` succeeds, and
its attribute dictionary (consulted for `__register__` handling). -/
structure ModuleInfo where
  importable : Bool
  attrs : List (String × PyObj)
deriving DecidableEq, Repr

/-- The global state read and written by `loadPlugin`. -/
structure PluginState where
  loaded : List (String × EntryMap)
  installed : List (String × EntryMap)
  failed : List String
  ns : List (String × List (String × PyObj))
  sysModules : List String
  modules : List (String × ModuleInfo)
  fqnObjs : List (String × PyObj)
deriving DecidableEq, Repr

/-- Python `str.startswith` (builtin), over the character list. -/
def strStartsWith (s pre : String) : Bool :=
  s.data.take pre.data.length = pre.data

instance {ε α : Type} [DecidableEq ε] [DecidableEq α] : DecidableEq (Except ε α) :=
  fun a b =>
    match a, b with
    | .error e1, .error e2 =>
      if h : e1 = e2 then isTrue (by rw [h])
      else isFalse (by intro hc; cases hc; exact h rfl)
    | .ok v1, .ok v2 =>
      if h : v1 = v2 then isTrue (by rw [h])
      else isFalse (by intro hc; cases hc; exact h rfl)
    | .error _, .ok _ => isFalse (by intro hc; cases hc)
    | .ok _, .error _ => isFalse (by intro hc; cases hc)

/-- Append the plugin to `_failed_plugins_` unless already present
(`if plugin not in _failed_plugins_: _failed_plugins_.append(plugin)`). -/
def failRecord (st : PluginState) (plugin : String) : PluginState :=
  if plugin ∈ st.failed then st else { st with failed := st.failed ++ [plugin] }

/-- Python `list.remove`: drops the first occurrence, raises ValueError
(modelled as `none`) when absent. -/
def pyListRemove (l : List String) (x : String) : Option (List String) :=
  if x ∈ l then some (l.erase x) else none

/-- `setattr` on the attribute dictionary of a namespace object:
replaces an existing binding in place or appends a new one. -/
def setAttrList (attrs : List (String × PyObj)) (attr : String) (v : PyObj) :
    List (String × PyObj) :=
  if attrs.any (fun a => a.1 = attr) then
    attrs.map (fun a => if a.1 = attr then (attr, v) else a)
  else attrs ++ [(attr, v)]

/-- `setattr(targObj, attr, v)` where `targObj` was resolved from `fqn`. -/
def setattrNs (ns : List (String × List (String × PyObj))) (fqn attr : String)
    (v : PyObj) : List (String × List (String × PyObj)) :=
  ns.map (fun e => if e.1 = fqn then (e.1, setAttrList e.2 attr v) else e)

/-- The per-attribute validation loop body of `loadPlugin` for one
extension-point group: imports the entry point's module when not yet in
`sys.modules` (running its `__register__` hook checks), then `ep.load()`.
`Sum.inl st` is the `return False` path (failed list already updated);
`Sum.inr (st, acc)` carries the loaded objects for deferred assignment. -/
def validateAttrs (plugin : String) (targAttrs : List (String × PyObj)) :
    PluginState → EPAttrs → List (String × PyObj) →
    Sum PluginState (PluginState × List (String × PyObj))
  | st, [], acc => Sum.inr (st, acc)
  | st, (attr, ep) :: rest, acc =>
    let afterImport : Sum PluginState PluginState :=
      if ep.module_name ∈ st.sysModules then Sum.inr st
      else
        match (st.modules.find? (fun m => m.1 = ep.module_name)).map (fun m => m.2) with
        | none => Sum.inl (failRecord st plugin)
        | some mi =>
          if mi.importable then
            let st2 := { st with sysModules := st.sysModules ++ [ep.module_name] }
            match (mi.attrs.find? (fun a => a.1 = "__register__")).map (fun a => a.2) with
            | none => Sum.inr st2
            | some PyObj.noneObj => Sum.inr st2
            | some (PyObj.strObj s) =>
              let func : Option PyObj :=
                match (mi.attrs.find? (fun a => a.1 = s)).map (fun a => a.2) with
                | some f => some f
                | none => (st2.fqnObjs.find? (fun o => o.1 = s)).map (fun o => o.2)
              match func with
              | some PyObj.callableObj => Sum.inr st2
              | _ => Sum.inl (failRecord st2 plugin)
            | some PyObj.callableObj => Sum.inr st2
            | some _ => Sum.inl (failRecord st2 plugin)
          else Sum.inl (failRecord st plugin)
    match afterImport with
    | Sum.inl stFail => Sum.inl stFail
    | Sum.inr st2 =>
      match ep.loadVal with
      | none => Sum.inl (failRecord st2 plugin)
      | some obj => validateAttrs plugin targAttrs st2 rest (acc ++ [(attr, obj)])

/-- The per-group validation loop of `loadPlugin`: skips non-psychopy
groups, hard-rejects groups into `psychopy.plugins`, resolves the target
namespace, and validates every attribute.  Nothing is assigned yet. -/
def validateEntries (plugin : String) :
    PluginState → EntryMap → List (String × List (String × PyObj)) →
    Sum PluginState (PluginState × List (String × List (String × PyObj)))
  | st, [], veps => Sum.inr (st, veps)
  | st, (fqn, attrs) :: rest, veps =>
    if ¬ strStartsWith fqn "psychopy" then validateEntries plugin st rest veps
    else if strStartsWith fqn "psychopy.plugins" ∨
        (fqn = "psychopy" ∧ (attrs.find? (fun a => a.1 = "plugins")).isSome) then
      Sum.inl (failRecord st plugin)
    else
      match (st.ns.find? (fun e => e.1 = fqn)).map (fun e => e.2) with
      | none => Sum.inl (failRecord st plugin)
      | some targAttrs =>
        match validateAttrs plugin targAttrs st attrs [] with
        | Sum.inl stFail => Sum.inl stFail
        | Sum.inr (st2, acc) =>
          validateEntries plugin st2 rest (veps ++ [(fqn, acc)])

/-- The deferred assignment phase: every validated entry point is
assigned into its target namespace. -/
def assignEntries (ns : List (String × List (String × PyObj))) :
    List (String × List (String × PyObj)) →
    List (String × List (String × PyObj))
  | [] => ns
  | (fqn, vals) :: rest =>
    assignEntries (vals.foldl (fun acc av => setattrNs acc fqn av.1 av.2) ns) rest

/-- `loadPlugin(plugin)`.  `Except.error` is an uncaught exception (the
string names it); `Except.ok (b, st)` is a normal return. -/
def loadPlugin (st : PluginState) (plugin : String) :
    Except String (Bool × PluginState) :=
  if (st.loaded.find? (fun e => e.1 = plugin)).isSome then
    Except.ok (true, st)
  else
    match (st.installed.find? (fun e => e.1 = plugin)).map (fun e => e.2) with
    | none => Except.ok (false, failRecord st plugin)
    | some entryMap =>
      if ¬ entryMap.any (fun e => strStartsWith e.1 "psychopy") then
        Except.error "AttributeError: 'list' object has no attribute 'keys'"
      else
        match validateEntries plugin st entryMap [] with
        | Sum.inl stFail => Except.ok (false, stFail)
        | Sum.inr (st2, veps) =>
          let st3 := { st2 with ns := assignEntries st2.ns veps }
          let st4 := { st3 with loaded := st3.loaded ++ [(plugin, entryMap)] }
          let failedFinal :=
            if plugin ∉ st4.failed then
              match pyListRemove st4.failed plugin with
              | some l => l
              | none => st4.failed
            else st4.failed
          Except.ok (true, { st4 with failed := failedFinal })


/-- C4 scenario: `badPlugin` is discovered (present in the installed
map) but its entry point map has no key under the reserved `psychopy`
prefix. -/
def pluginStateC4 : PluginState :=
  { loaded := [], installed := [("badPlugin", [("otherlib.stuff", [])])],
    failed := [], ns := [], sysModules := [], modules := [], fqnObjs := [] }

/-- C4: for a discovered plugin with no `psychopy`-prefixed entry point
the claim says `loadPlugin` logs, records the plugin in the failed list
and returns False without raising.  The branch actually evaluates
`plugin not in _failed_plugins_.keys()`, and `_failed_plugins_` is a
Python *list*, which has no `keys` method: the call raises
AttributeError after logging, records nothing, and never returns. -/
theorem loadPlugin_no_psychopy_entries_raises :
    loadPlugin pluginStateC4 "badPlugin" =
      Except.error "AttributeError: 'list' object has no attribute 'keys'" ∧
    ∀ r : Bool × PluginState, loadPlugin pluginStateC4 "badPlugin" ≠ Except.ok r := by
  constructor
  · decide
  · intro r h
    have herr : loadPlugin pluginStateC4 "badPlugin" =
        Except.error "AttributeError: 'list' object has no attribute 'keys'" := by
      decide
    rw [herr] at h
    exact Except.noConfusion h

/-- The entry point map of the C2 scenario plugin `p`: one valid entry
point into `psychopy.visual` and one entry point whose target group
`psychopy.missing` does not resolve. -/
def pluginEmC2 : EntryMap :=
  [("psychopy.visual", [("Thing", ⟨"p_mod", some (PyObj.plainObj "ThingObj")⟩)]),
   ("psychopy.missing", [("Other", ⟨"p_mod", some (PyObj.plainObj "OtherObj")⟩)])]

/-- C2 initial state: `p` installed with `pluginEmC2`, its module already
imported, `psychopy.visual` resolvable, `psychopy.missing` not. -/
def pluginStateC2 : PluginState :=
  { loaded := [], installed := [("p", pluginEmC2)], failed := [],
    ns := [("psychopy.visual", [])], sysModules := ["p_mod"], modules := [],
    fqnObjs := [] }

/-- The state after the failed first load: only the failed list changed. -/
def pluginStateC2' : PluginState :=
  { pluginStateC2 with failed := ["p"] }

/-- The namespace is then repaired (the missing target group becomes
resolvable), modelling the plugin being fixed before the second call. -/
def pluginStateC2'' : PluginState :=
  { pluginStateC2' with ns := pluginStateC2'.ns ++ [("psychopy.missing", [])] }

/-- The state after the successful second load: both entry points
assigned, the plugin recorded as loaded — and still on the failed list. -/
def pluginStateC2''' : PluginState :=
  { pluginStateC2'' with
    ns := [("psychopy.visual", [("Thing", PyObj.plainObj "ThingObj")]),
           ("psychopy.missing", [("Other", PyObj.plainObj "OtherObj")])],
    loaded := [("p", pluginEmC2)] }

/-- C2: the all-or-nothing half of the claim holds — the failed first
call assigns nothing into any namespace and records `p` in the failed
list — but the removal half does not: the subsequent successful call
leaves `p` on the failed list, because the cleanup runs under
`if plugin not in _failed_plugins_` (inverted; the `.remove` inside can
then only raise the caught ValueError), contradicting its own comment
"If we made it here on a previously failed plugin, it was likely fixed
and can be removed from the list". -/
theorem loadPlugin_fail_then_success_keeps_failed_entry :
    loadPlugin pluginStateC2 "p" = Except.ok (false, pluginStateC2') ∧
    pluginStateC2'.ns = pluginStateC2.ns ∧
    pluginStateC2'.failed = ["p"] ∧
    loadPlugin pluginStateC2'' "p" = Except.ok (true, pluginStateC2''') ∧
    "p" ∈ pluginStateC2'''.failed := by
  refine ⟨by decide, by decide, by decide, by decide, by decide⟩


/- ===================================================================
   Section 8: `psychopy/tools/monitorunittools.py`
   (claim C7)

   `cm2deg`, `deg2cm`, `cm2pix`, `pix2cm`, `deg2pix`, `pix2deg`.  Real
   arithmetic is modelled over `ℝ` (the claim's "within floating-point
   tolerance" is ideal-arithmetic equality).  A monitor carries the three
   calibration fields the functions consult (`getDistance()`,
   `getWidth()`, `getSizePix()[0]`), each `Option` because the source
   raises a descriptive ValueError when one is absent — errors are
   `Except.error`.  Values are numpy scalars or shape-(2,) arrays,
   embedded as `NVal`; the `[N,2]` branch of `deg2cm`'s flat mode is the
   row-wise reading of the pair branch and is not given a separate
   constructor.  The `isinstance(monitor, monitors.Monitor)` guards are
   satisfied by construction here.  numpy's `radians`, `degrees`,
   `hypot`, `arctan`, `tan` are the corresponding real functions.
   =================================================================== -/

/-- The calibration data of a `monitors.Monitor` consulted by the
conversion functions. -/
structure Monitor where
  name : String
  distance : Option ℝ
  width : Option ℝ
  sizePixW : Option ℝ

/-- A numpy value flowing through the conversions: a scalar or a
shape-(2,) array of x/y coordinates. -/
inductive NVal where
  | scalar (x : ℝ)
  | pair (x y : ℝ)

/-- Elementwise application (numpy broadcasting over the value). -/
def nmap (f : ℝ → ℝ) : NVal → NVal
  | .scalar x => .scalar (f x)
  | .pair x y => .pair (f x) (f y)

/-- numpy `radians`. -/
noncomputable def npRadians (d : ℝ) : ℝ := d * Real.pi / 180

/-- numpy `degrees`. -/
noncomputable def npDegrees (r : ℝ) : ℝ := r * 180 / Real.pi

/-- numpy `hypot`. -/
noncomputable def npHypot (a b : ℝ) : ℝ := Real.sqrt (a ^ 2 + b ^ 2)

/-- `cm2deg(cm, monitor, correctFlat)`. -/
noncomputable def cm2deg (cm : NVal) (m : Monitor) (correctFlat : Bool) :
    Except String NVal :=
  match m.distance with
  | none => .error ("Monitor " ++ m.name ++ " has no known distance (SEE MONITOR CENTER)")
  | some dist =>
    if correctFlat then .ok (nmap (fun c => npDegrees (Real.arctan (c / dist))) cm)
    else .ok (nmap (fun c => c / (dist * 0.017455)) cm)

/-- `deg2cm(degrees, monitor, correctFlat)`: the flat branch demands an
x/y array (scalars raise the shape ValueError) and couples the two axes
through `hypot`. -/
noncomputable def deg2cm (degs : NVal) (m : Monitor) (correctFlat : Bool) :
    Except String NVal :=
  match m.distance with
  | none => .error ("Monitor " ++ m.name ++ " has no known distance (SEE MONITOR CENTER)")
  | some dist =>
    if correctFlat then
      match degs with
      | .pair xd yd =>
        .ok (.pair
          (npHypot dist (Real.tan (npRadians yd) * dist) * Real.tan (npRadians xd))
          (npHypot dist (Real.tan (npRadians xd) * dist) * Real.tan (npRadians yd)))
      | .scalar _ =>
        .error "If using deg2cm with correctedFlat==True then degrees arg must have shape [N,2]"
    else .ok (nmap (fun d => d * dist * 0.017455) degs)

/-- `cm2pix(cm, monitor)`. -/
noncomputable def cm2pix (cm : NVal) (m : Monitor) : Except String NVal :=
  match m.sizePixW with
  | none => .error ("Monitor " ++ m.name ++ " has no known size in pixels (SEE MONITOR CENTER)")
  | some pw =>
    match m.width with
    | none => .error ("Monitor " ++ m.name ++ " has no known width in cm (SEE MONITOR CENTER)")
    | some w => .ok (nmap (fun c => c * pw / w) cm)

/-- `pix2cm(pixels, monitor)`. -/
noncomputable def pix2cm (pixels : NVal) (m : Monitor) : Except String NVal :=
  match m.sizePixW with
  | none => .error ("Monitor " ++ m.name ++ " has no known size in pixels (SEE MONITOR CENTER)")
  | some pw =>
    match m.width with
    | none => .error ("Monitor " ++ m.name ++ " has no known width in cm (SEE MONITOR CENTER)")
    | some w => .ok (nmap (fun p => p * w / pw) pixels)

/-- `deg2pix(degrees, monitor, correctFlat)`: `deg2cm` then the pixel
scale (a ValueError from `deg2cm` propagates). -/
noncomputable def deg2pix (degs : NVal) (m : Monitor) (correctFlat : Bool) :
    Except String NVal :=
  match m.sizePixW with
  | none => .error ("Monitor " ++ m.name ++ " has no known size in pixels (SEE MONITOR CENTER)")
  | some pw =>
    match m.width with
    | none => .error ("Monitor " ++ m.name ++ " has no known width in cm (SEE MONITOR CENTER)")
    | some w =>
      match deg2cm degs m correctFlat with
      | .error e => .error e
      | .ok cmSize => .ok (nmap (fun c => c * pw / w) cmSize)

/-- `pix2deg(pixels, monitor, correctFlat)`: the pixel scale then
`cm2deg`. -/
noncomputable def pix2deg (pixels : NVal) (m : Monitor) (correctFlat : Bool) :
    Except String NVal :=
  match m.sizePixW with
  | none => .error ("Monitor " ++ m.name ++ " has no known size in pixels (SEE MONITOR CENTER)")
  | some pw =>
    match m.width with
    | none => .error ("Monitor " ++ m.name ++ " has no known width in cm (SEE MONITOR CENTER)")
    | some w =>
      cm2deg (nmap (fun p => p * w / pw) pixels) m correctFlat


/-- A fully calibrated monitor with unit dimensions (distance 1 cm, width
1 cm, 1 pixel wide), making the pixel scale the identity. -/
def monC7 : Monitor := ⟨"testMonitor", some 1, some 1, some 1⟩

/-- C7 counterexample: with `correctFlat=True` the round trip does not
recover the input.  A scalar magnitude is rejected outright (`deg2cm`'s
flat branch demands an `[N,2]` array), and the off-axis pair (45°,45°)
comes back as `degrees(arctan(sqrt 2)) ≈ 54.7°` in each coordinate,
because `cm2deg`'s flat branch inverts the separable `tan` formula while
`deg2cm`'s flat branch couples the axes through `hypot`. -/
theorem unit_roundtrip_flat_fails :
    deg2pix (NVal.scalar 45) monC7 true =
      Except.error
        "If using deg2cm with correctedFlat==True then degrees arg must have shape [N,2]" ∧
    (deg2pix (NVal.pair 45 45) monC7 true).bind
        (fun p => pix2deg p monC7 true) ≠
      Except.ok (NVal.pair 45 45) := by
  constructor
  · rfl
  · intro hcontra
    have hred : (deg2pix (NVal.pair 45 45) monC7 true).bind
        (fun p => pix2deg p monC7 true) =
        Except.ok (NVal.pair
          (npDegrees (Real.arctan (npHypot 1 (Real.tan (npRadians 45) * 1) *
            Real.tan (npRadians 45) * 1 / 1 * 1 / 1 / 1)))
          (npDegrees (Real.arctan (npHypot 1 (Real.tan (npRadians 45) * 1) *
            Real.tan (npRadians 45) * 1 / 1 * 1 / 1 / 1)))) := rfl
    rw [hred] at hcontra
    injection Except.ok.inj hcontra with hx hy
    have h45 : Real.arctan (Real.sqrt (1 + Real.tan (45 * Real.pi / 180) ^ 2) *
        Real.tan (45 * Real.pi / 180)) * 180 / Real.pi = 45 := by
      simpa [npDegrees, npRadians, npHypot, mul_one, div_one, one_pow] using hx
    have hq : (45 : ℝ) * Real.pi / 180 = Real.pi / 4 := by ring
    rw [hq, Real.tan_pi_div_four, mul_one] at h45
    have hsq : (1 : ℝ) + 1 ^ 2 = 2 := by norm_num
    rw [hsq] at h45
    have hpi : Real.pi ≠ 0 := Real.pi_ne_zero
    have h3 : Real.arctan (Real.sqrt 2) = Real.pi / 4 := by
      field_simp at h45
      linarith
    rw [← Real.arctan_one] at h3
    have h4 : Real.sqrt 2 = 1 := Real.arctan_injective h3
    have h5 : (2 : ℝ) = 1 := Real.sqrt_eq_one.mp h4
    norm_num at h5


/-- C7 (amended): for every calibrated monitor, `pix2cm ∘ cm2pix`
recovers every magnitude, and `pix2deg ∘ deg2pix` recovers every
magnitude in the linear-approximation mode (`correctFlat=False`); in the
flat-corrected mode (`correctFlat=True`) `deg2cm` accepts only [x,y]
coordinate pairs — a scalar raises the shape ValueError — and the round
trip recovers exactly the on-axis pairs (other coordinate 0); general
flat pairs are not recovered (see the counterexample: `cm2deg`'s flat
branch inverts the separable formula, not `deg2cm`'s coupled one). -/
theorem unit_roundtrip_linear_and_onaxis :
    (∀ (nm : String) (d w pw x : ℝ), w ≠ 0 → pw ≠ 0 →
      (cm2pix (NVal.scalar x) ⟨nm, some d, some w, some pw⟩).bind
        (fun p => pix2cm p ⟨nm, some d, some w, some pw⟩) =
        Except.ok (NVal.scalar x)) ∧
    (∀ (nm : String) (d w pw x : ℝ), d ≠ 0 → w ≠ 0 → pw ≠ 0 →
      (deg2pix (NVal.scalar x) ⟨nm, some d, some w, some pw⟩ false).bind
        (fun p => pix2deg p ⟨nm, some d, some w, some pw⟩ false) =
        Except.ok (NVal.scalar x)) ∧
    (∀ (nm : String) (d w pw x : ℝ),
      deg2pix (NVal.scalar x) ⟨nm, some d, some w, some pw⟩ true =
        Except.error
          "If using deg2cm with correctedFlat==True then degrees arg must have shape [N,2]") ∧
    (∀ (nm : String) (d w pw x : ℝ), 0 < d → w ≠ 0 → pw ≠ 0 →
      -90 < x → x < 90 →
      (deg2pix (NVal.pair x 0) ⟨nm, some d, some w, some pw⟩ true).bind
        (fun p => pix2deg p ⟨nm, some d, some w, some pw⟩ true) =
        Except.ok (NVal.pair x 0)) := by
  refine ⟨?_, ?_, ?_, ?_⟩
  · intro nm d w pw x hw hpw
    have hred : (cm2pix (NVal.scalar x) ⟨nm, some d, some w, some pw⟩).bind
        (fun p => pix2cm p ⟨nm, some d, some w, some pw⟩) =
        Except.ok (NVal.scalar (x * pw / w * w / pw)) := rfl
    have harith : x * pw / w * w / pw = x := by
      field_simp
    rw [hred, harith]
  · intro nm d w pw x hd hw hpw
    have hred : (deg2pix (NVal.scalar x) ⟨nm, some d, some w, some pw⟩ false).bind
        (fun p => pix2deg p ⟨nm, some d, some w, some pw⟩ false) =
        Except.ok (NVal.scalar
          (x * d * 0.017455 * pw / w * w / pw / (d * 0.017455))) := rfl
    have h17 : (0.017455 : ℝ) ≠ 0 := by norm_num
    have harith : x * d * 0.017455 * pw / w * w / pw / (d * 0.017455) = x := by
      field_simp
      ring
    rw [hred, harith]
  · intro nm d w pw x
    rfl
  · intro nm d w pw x hd hw hpw hx1 hx2
    have hred : (deg2pix (NVal.pair x 0) ⟨nm, some d, some w, some pw⟩ true).bind
        (fun p => pix2deg p ⟨nm, some d, some w, some pw⟩ true) =
        Except.ok (NVal.pair
          (npDegrees (Real.arctan (npHypot d (Real.tan (npRadians 0) * d) *
            Real.tan (npRadians x) * pw / w * w / pw / d)))
          (npDegrees (Real.arctan (npHypot d (Real.tan (npRadians x) * d) *
            Real.tan (npRadians 0) * pw / w * w / pw / d)))) := rfl
    have h0 : npRadians 0 = 0 := by
      unfold npRadians
      ring
    have htan0 : Real.tan (npRadians 0) = 0 := by
      rw [h0, Real.tan_zero]
    have hhyp : npHypot d (Real.tan (npRadians 0) * d) = d := by
      rw [htan0, zero_mul]
      unfold npHypot
      rw [show (0 : ℝ) ^ 2 = 0 by norm_num, add_zero, Real.sqrt_sq_eq_abs]
      exact abs_of_pos hd
    have hxrb1 : -(Real.pi / 2) < npRadians x := by
      unfold npRadians
      nlinarith [Real.pi_pos]
    have hxrb2 : npRadians x < Real.pi / 2 := by
      unfold npRadians
      nlinarith [Real.pi_pos]
    have hP : npDegrees (Real.arctan (npHypot d (Real.tan (npRadians 0) * d) *
        Real.tan (npRadians x) * pw / w * w / pw / d)) = x := by
      rw [hhyp]
      have harg : d * Real.tan (npRadians x) * pw / w * w / pw / d =
          Real.tan (npRadians x) := by
        field_simp
      rw [harg, Real.arctan_tan hxrb1 hxrb2]
      unfold npDegrees npRadians
      field_simp
    have hQ : npDegrees (Real.arctan (npHypot d (Real.tan (npRadians x) * d) *
        Real.tan (npRadians 0) * pw / w * w / pw / d)) = 0 := by
      rw [htan0, mul_zero, zero_mul, zero_div, zero_mul, zero_div, zero_div,
        Real.arctan_zero]
      unfold npDegrees
      rw [zero_mul, zero_div]
    rw [hred, hP, hQ]

/-- Witness for C7's amended theorem: concrete calibrated monitor
(distance 2 cm, width 3 cm, 4 pixels) and magnitude 1, in both the cm
and the linear degree round trips. -/
theorem unit_roundtrip_linear_and_onaxis_witness :
    (cm2pix (NVal.scalar 1) ⟨"m", some 2, some 3, some 4⟩).bind
      (fun p => pix2cm p ⟨"m", some 2, some 3, some 4⟩) =
      Except.ok (NVal.scalar 1) ∧
    (deg2pix (NVal.scalar 1) ⟨"m", some 2, some 3, some 4⟩ false).bind
      (fun p => pix2deg p ⟨"m", some 2, some 3, some 4⟩ false) =
      Except.ok (NVal.scalar 1) :=
  ⟨unit_roundtrip_linear_and_onaxis.1 "m" 2 3 4 1 three_ne_zero four_ne_zero,
   unit_roundtrip_linear_and_onaxis.2.1 "m" 2 3 4 1 two_ne_zero three_ne_zero
     four_ne_zero⟩

end PsychoPy
